import Mathlib

/-!
# Verification of the smtp-queue relay

A shallow embedding of the Go repository `ivampiresp/smtp-queue`:

* `server/server.go` — the inbound SMTP session state machine
  (`smtpSession`, `handleCommand` and the per-command handlers,
  `processEmail`);
* `db/db.go` — the SQLite-backed queue store, modelled as a pure
  in-memory store (`Store`): `QueueEmail`, `GetPendingEmails`,
  `MarkEmailFailed`, `DeleteEmail`, `CleanupOldEmails`,
  `splitAddresses` / `splitString`;
* `worker/worker.go` — the dispatch worker (`processQueue`,
  `sendEmail`'s deterministic preparation and header composition,
  `buildAddressList`).

Machine integers (`int`, `int64`) are modelled as `Int`; timestamps as
`Int` (an abstract clock passed explicitly where Go calls `time.Now()`).
Network and SQL effects are modelled by explicit parameters: the SQL
layer always succeeds in the model (SQL errors are environmental), and
the upstream SMTP server's behaviour is an oracle `net : Int → Except
String Unit` giving the outcome of the transport exchange per message id.

String primitives are re-implemented over `String.data` (`List Char`)
so that every definition reduces in the kernel; they mirror the Go
`strings` functions used by the source.  Go's `strings.ToUpper/ToLower`
are Unicode case mappings; the sources only case-map ASCII command words
and header keys, so the ASCII mapping is used.
-/

/-- Characters of a string.  `String` in Lean is a structure holding a
`List Char`; this abbreviation keeps the embedding readable. -/
def strChars (s : String) : List Char := s.data

/-- ASCII lower-casing of one character (Go `strings.ToLower`,
restricted to ASCII, which is all the source ever case-maps). -/
def charToLower (c : Char) : Char :=
  if 'A' ≤ c ∧ c ≤ 'Z' then Char.ofNat (c.toNat + 32) else c

/-- ASCII upper-casing of one character (Go `strings.ToUpper`,
restricted to ASCII). -/
def charToUpper (c : Char) : Char :=
  if 'a' ≤ c ∧ c ≤ 'z' then Char.ofNat (c.toNat - 32) else c

/-- Go `strings.ToLower` (ASCII fragment). -/
def strToLower (s : String) : String := String.mk (s.data.map charToLower)

/-- Go `strings.ToUpper` (ASCII fragment). -/
def strToUpper (s : String) : String := String.mk (s.data.map charToUpper)

/-- Go `strings.HasPrefix s pre`. -/
def strHasPre (s pre : String) : Bool := pre.data.isPrefixOf s.data

/-- Go slicing `s[n:]` where the first `n` bytes are known to be ASCII
(the source only slices off ASCII keyword heads such as `FROM:`). -/
def strDrop (s : String) (n : Nat) : String := String.mk (s.data.drop n)

/-- Membership of a character in the Go cutset `"<>"`. -/
def isAngle (c : Char) : Bool := c = '<' || c = '>'

/-- Go `strings.Trim s "<>"`: remove all leading and trailing `<`/`>`. -/
def trimAngles (s : String) : String :=
  String.mk (((s.data.dropWhile isAngle).reverse.dropWhile isAngle).reverse)

/-- Go `unicode.IsSpace` restricted to the ASCII whitespace the protocol
can carry on a header line. -/
def isSpaceGo (c : Char) : Bool :=
  c = ' ' || c = '\t' || c = '\n' || c = '\r' || c = '\x0b' || c = '\x0c'

/-- Go `strings.TrimSpace`. -/
def strTrimSpace (s : String) : String :=
  String.mk (((s.data.dropWhile isSpaceGo).reverse.dropWhile isSpaceGo).reverse)

/-- Go `strings.SplitN(line, " ", 2)` reduced to the pair
(first field, rest); when no space occurs the rest is empty, matching
`args := ""` in `handleCommand`. -/
def splitFirstSpace : List Char → List Char × List Char
  | [] => ([], [])
  | c :: rest =>
    if c = ' ' then ([], rest)
    else
      let p := splitFirstSpace rest
      (c :: p.1, p.2)

/-- Go `strings.Split(s, "\r\n")`, specialised to the only separator the
source splits on (worker.go line 150): non-overlapping, left to right,
empty segments kept, `Split "" = [""]`. -/
def splitCRLFAux : List Char → List Char → List (List Char)
  | [], acc => [acc.reverse]
  | '\r' :: '\n' :: rest, acc => acc.reverse :: splitCRLFAux rest []
  | c :: rest, acc => splitCRLFAux rest (c :: acc)

/-- Content split into lines at `"\r\n"` (Go `strings.Split`). -/
def splitLines (s : String) : List String :=
  (splitCRLFAux s.data []).map String.mk

/-- Go `strings.Join(lines, "\r\n")`. -/
def joinCRLF : List String → String
  | [] => ""
  | [l] => l
  | l :: rest => l ++ "\r\n" ++ joinCRLF rest

/-! ## db/db.go — the queue store -/

/-- One row of the `emails` table (db.go:37-49).  `last_error` NULL is
modelled as `""`, exactly the value `GetPendingEmails` converts a NULL
to before the row is ever observed. -/
structure EmailRow where
  id : Int
  fromAddress : String
  toAddresses : String
  subject : String
  body : String
  createdAt : Int
  sent : Bool
  failCount : Int
  lastError : String
  deriving DecidableEq

/-- The queue store: the `emails` table plus the AUTOINCREMENT counter. -/
structure Store where
  nextId : Int
  emails : List EmailRow
  deriving DecidableEq

/-- The Go struct `db.Email` as fetched by `GetPendingEmails`. -/
structure Email where
  ID : Int
  From : String
  To : List String
  Subject : String
  Body : String
  Created : Int
  Sent : Bool
  FailCount : Int
  LastError : String
  deriving DecidableEq

/-- The serialisation loop of `DB.QueueEmail` (db.go:64-71): recipients
joined with `";"` (separator only between elements). -/
def joinAddresses : List String → String
  | [] => ""
  | [a] => a
  | a :: rest => a ++ ";" ++ joinAddresses rest

/-- The scanning loop of `splitString` (db.go:207-225) specialised to
the one-character separator `";"` it is called with: accumulate the
current segment, emit it at each `';'`, and after the loop emit the
final segment only when it is non-empty (Go appends `s[start:]` only
when `start < len(s)`). -/
def splitStringAux : List Char → List Char → List (List Char)
  | [], acc => if acc.isEmpty then [] else [acc.reverse]
  | c :: rest, acc =>
    if c = ';' then acc.reverse :: splitStringAux rest []
    else splitStringAux rest (c :: acc)

/-- `splitString` (db.go:207): `splitString "" = []`, otherwise the
segment scan above. -/
def splitString (s : String) : List String :=
  (splitStringAux s.data []).map String.mk

/-- `splitAddresses` (db.go:192-204): empty input gives `[]`, otherwise
split at `";"` and drop empty segments. -/
def splitAddresses (s : String) : List String :=
  if s = "" then [] else (splitString s).filter (fun a => a ≠ "")

/-- `DB.QueueEmail` (db.go:63-82): serialise the recipient list, insert
a fresh row with `created_at = now`, `sent = 0`, `fail_count = 0`, and
return the row id.  SQL failure is environmental and outside the model. -/
def queueEmail (st : Store) (now : Int) (efrom : String)
    (recips : List String) (subject body : String) : Int × Store :=
  let toStr := joinAddresses recips
  let row : EmailRow :=
    { id := st.nextId, fromAddress := efrom, toAddresses := toStr
      subject := subject, body := body, createdAt := now
      sent := false, failCount := 0, lastError := "" }
  (st.nextId, { st with nextId := st.nextId + 1, emails := st.emails ++ [row] })

/-- Row-to-struct conversion inside `GetPendingEmails` (db.go:99-133):
recipients parsed with `splitAddresses`, `Sent` hard-coded `false`. -/
def rowToEmail (r : EmailRow) : Email :=
  { ID := r.id, From := r.fromAddress, To := splitAddresses r.toAddresses
    Subject := r.subject, Body := r.body, Created := r.createdAt
    Sent := false, FailCount := r.failCount, LastError := r.lastError }

/-- Stable insertion of a row into a list already ascending by
`created_at` (part of the `ORDER BY created_at ASC` model). -/
def insertByCreated (r : EmailRow) : List EmailRow → List EmailRow
  | [] => [r]
  | x :: xs =>
    if x.createdAt ≤ r.createdAt then x :: insertByCreated r xs
    else r :: x :: xs

/-- `ORDER BY created_at ASC` as a stable insertion sort. -/
def sortByCreated : List EmailRow → List EmailRow
  | [] => []
  | x :: xs => insertByCreated x (sortByCreated xs)

/-- `DB.GetPendingEmails` (db.go:85-137): rows with `sent = 0`, ordered
by `created_at ASC` (stable on ties in the model), limited, converted. -/
def getPendingEmails (st : Store) (limit : Nat) : List Email :=
  ((sortByCreated (st.emails.filter (fun r => !r.sent))).take limit).map
    rowToEmail

/-- `DB.MarkEmailFailed` (db.go:155-161):
`fail_count = fail_count + 1, last_error = msg` on the matching row. -/
def markEmailFailed (st : Store) (id : Int) (msg : String) : Store :=
  { st with emails := st.emails.map (fun r =>
      if r.id = id then { r with failCount := r.failCount + 1, lastError := msg }
      else r) }

/-- `DB.DeleteEmail` (db.go:149-152). -/
def deleteEmail (st : Store) (id : Int) : Store :=
  { st with emails := st.emails.filter (fun r => !(r.id = id)) }

/-- `DB.CleanupOldEmails` (db.go:164-189): first delete every row with
`fail_count >= maxFailCount`, then every remaining row with
`created_at < now - maxAge`, and return the summed row counts. -/
def cleanupOldEmails (st : Store) (now : Int) (maxAge : Int)
    (maxFailCount : Int) : Nat × Store :=
  let failRemoved := (st.emails.filter (fun r => decide (r.failCount ≥ maxFailCount))).length
  let emails1 := st.emails.filter (fun r => !(decide (r.failCount ≥ maxFailCount)))
  let oldTime := now - maxAge
  let ageRemoved := (emails1.filter (fun r => decide (r.createdAt < oldTime))).length
  let emails2 := emails1.filter (fun r => !(decide (r.createdAt < oldTime)))
  (failRemoved + ageRemoved, { st with emails := emails2 })

/-! ## config/config.go — the configuration surface the core reads -/

/-- The fields of `config.Config` consumed by the session and worker.
`MaxEmailAge` is a duration and `QueueInterval`-style scheduling is out
of scope; timestamps share the abstract `Int` clock. -/
structure Config where
  MaxEmailAge : Int
  MaxFailCount : Int
  SMTPHost : String
  SMTPPort : Int
  SMTPUsername : String
  SMTPPassword : String
  SMTPFrom : String
  SMTPEncryption : String
  deriving DecidableEq

/-! ## server/server.go — the ingestion session -/

/-- Reply constants (server.go:17-27). -/
def statusOK : String := "250 OK"

/-- `statusStartMail` (server.go:20). -/
def statusStartMail : String := "250 Go ahead"

/-- `statusDataReady` (server.go:21). -/
def statusDataReady : String := "354 Start mail input; end with <CRLF>.<CRLF>"

/-- `statusClosing` (server.go:22). -/
def statusClosing : String := "221 Bye"

/-- `statusCommandUnknown` (server.go:23). -/
def statusCommandUnknown : String := "500 Command unrecognized"

/-- `statusSyntaxError` (server.go:24). -/
def statusSyntaxError : String := "501 Syntax error"

/-- `statusBadSequence` (server.go:26). -/
def statusBadSequence : String := "503 Bad sequence of commands"

/-- The mutable state of `smtpSession` (server.go:114-126); the
connection, database and config handles are passed separately. -/
structure SmtpSession where
  helo : String
  mailFrom : String
  rcptTo : List String
  data : List String
  inData : Bool
  quit : Bool
  deriving DecidableEq

/-- `newSession` (server.go:129-135): all fields zero-valued. -/
def newSession : SmtpSession :=
  { helo := "", mailFrom := "", rcptTo := [], data := [], inData := false
    quit := false }

/-- `handleHelo` (server.go:181-190): empty argument is a syntax error
with no state change; otherwise store the argument and reply 250.
No other session field is touched. -/
def handleHelo (s : SmtpSession) (args : String) : SmtpSession × List String :=
  if args = "" then (s, [statusSyntaxError])
  else ({ s with helo := args }, [statusOK])

/-- `handleMail` (server.go:193-215). -/
def handleMail (s : SmtpSession) (args : String) : SmtpSession × List String :=
  if s.helo = "" then (s, [statusBadSequence])
  else if !(strHasPre (strToUpper args) "FROM:") then (s, [statusSyntaxError])
  else
    let mailFrom := trimAngles (strToLower (strDrop args 5))
    if mailFrom = "" then (s, [statusSyntaxError])
    else ({ s with mailFrom := mailFrom }, [statusStartMail])

/-- `handleRcpt` (server.go:218-240): 503 when no sender has been
declared; otherwise validate the `TO:` head, trim angle brackets,
lower-case, and append one recipient. -/
def handleRcpt (s : SmtpSession) (args : String) : SmtpSession × List String :=
  if s.mailFrom = "" then (s, [statusBadSequence])
  else if !(strHasPre (strToUpper args) "TO:") then (s, [statusSyntaxError])
  else
    let rcptTo := trimAngles (strToLower (strDrop args 3))
    if rcptTo = "" then (s, [statusSyntaxError])
    else ({ s with rcptTo := s.rcptTo ++ [rcptTo] }, [statusOK])

/-- `handleDataCommand` (server.go:243-252). -/
def handleDataCommand (s : SmtpSession) : SmtpSession × List String :=
  if s.rcptTo.length = 0 then (s, [statusBadSequence])
  else ({ s with inData := true }, [statusDataReady])

/-- `handleRset` (server.go:281-289): clear sender, recipients, body and
data mode, reply 250; the greeting is untouched. -/
def handleRset (s : SmtpSession) : SmtpSession × List String :=
  ({ s with mailFrom := "", rcptTo := [], data := [], inData := false },
   [statusOK])

/-- `handleQuit` (server.go:292-296). -/
def handleQuit (s : SmtpSession) : SmtpSession × List String :=
  ({ s with quit := true }, [statusClosing])

/-- The subject scan of `processEmail` (server.go:305-311): first line
whose lower-casing starts with `"subject:"`, value `TrimSpace(line[8:])`. -/
def findSubject : List String → String
  | [] => ""
  | l :: rest =>
    if strHasPre (strToLower l) "subject:" then strTrimSpace (strDrop l 8)
    else findSubject rest

/-- `processEmail` (server.go:299-338): error on an empty body; else
extract the subject (placeholder `"(无主题)"` when absent), override the
declared sender with `cfg.SMTPFrom` when configured, join the body lines
with CRLF verbatim, insert into the store, and clear the transaction
fields.  Only the empty-body error is reachable in the pure store model. -/
def processEmail (cfg : Config) (now : Int) (st : Store) (s : SmtpSession) :
    Except String (SmtpSession × Store) :=
  if s.data.length = 0 then .error "邮件内容为空"
  else
    let subject0 := findSubject s.data
    let subject := if subject0 = "" then "(无主题)" else subject0
    let efrom := if cfg.SMTPFrom ≠ "" then cfg.SMTPFrom else s.mailFrom
    let originalContent := joinCRLF s.data
    let res := queueEmail st now efrom s.rcptTo subject originalContent
    .ok ({ s with mailFrom := "", rcptTo := [], data := [] }, res.2)

/-- The terminator branch of `handleData` (server.go:257-269): commit
via `processEmail`; a failure replies `554 Transaction failed: <err>`
leaving session fields as they are, success replies 250.  `inData` has
already been cleared by the caller. -/
def commitTransaction (cfg : Config) (now : Int) (st : Store)
    (s : SmtpSession) : SmtpSession × Store × List String :=
  match processEmail cfg now st s with
  | .error e => (s, st, ["554 Transaction failed: " ++ e])
  | .ok (s', st') => (s', st', [statusOK])

/-- `handleData` (server.go:255-278): `"."` ends collection and commits;
any other line is appended, with one leading dot stripped first. -/
def handleData (cfg : Config) (now : Int) (st : Store) (s : SmtpSession)
    (line : String) : SmtpSession × Store × List String :=
  if line = "." then commitTransaction cfg now st { s with inData := false }
  else
    let line' := if strHasPre line "." then strDrop line 1 else line
    ({ s with data := s.data ++ [line'] }, st, [])

/-- `handleCommand` (server.go:143-178): body mode routes every line to
`handleData`; otherwise split off the first word, upper-case it, and
dispatch.  The reply list is what `send` wrote for this line. -/
def handleCommand (cfg : Config) (now : Int) (st : Store) (s : SmtpSession)
    (line : String) : SmtpSession × Store × List String :=
  if s.inData then handleData cfg now st s line
  else
    let p := splitFirstSpace line.data
    let command := strToUpper (String.mk p.1)
    let args := String.mk p.2
    if command = "HELO" ∨ command = "EHLO" then
      let r := handleHelo s args; (r.1, st, r.2)
    else if command = "MAIL" then
      let r := handleMail s args; (r.1, st, r.2)
    else if command = "RCPT" then
      let r := handleRcpt s args; (r.1, st, r.2)
    else if command = "DATA" then
      let r := handleDataCommand s; (r.1, st, r.2)
    else if command = "RSET" then
      let r := handleRset s; (r.1, st, r.2)
    else if command = "NOOP" then (s, st, [statusOK])
    else if command = "QUIT" then
      let r := handleQuit s; (r.1, st, r.2)
    else (s, st, [statusCommandUnknown])

/-! ## worker/worker.go — the dispatch worker -/

/-- `buildAddressList` (worker.go:403-413): comma-space join, separator
only between elements. -/
def buildAddressList : List String → String
  | [] => ""
  | a :: rest => rest.foldl (fun acc x => acc ++ ", " ++ x) a

/-- The header-detection scan of `sendEmail` (worker.go:156-162): some
line starts (case-insensitively) with `content-type:` or
`mime-version:`. -/
def lineIsHeaderMarker (l : String) : Bool :=
  strHasPre (strToLower l) "content-type:" || strHasPre (strToLower l) "mime-version:"

/-- `hasHeaders` (worker.go:149-162) over the split lines. -/
def hasHeadersCheck (lines : List String) : Bool :=
  lines.any lineIsHeaderMarker

/-- The replace loop of `sendEmail` (worker.go:168-192): every line that
starts (case-insensitively) with `from:` becomes the new From header,
every line starting with `to:` becomes the new To header, all other
lines are kept; the flags record whether a replacement happened. -/
def rewriteHeaderLines (fromHdr toHdr : String) :
    List String → List String × Bool × Bool
  | [] => ([], false, false)
  | l :: rest =>
    let p := rewriteHeaderLines fromHdr toHdr rest
    if strHasPre (strToLower l) "from:" then (fromHdr :: p.1, true, p.2.2)
    else if strHasPre (strToLower l) "to:" then (toHdr :: p.1, p.2.1, true)
    else (l :: p.1, p.2.1, p.2.2)

/-- The insertion scan of `sendEmail` (worker.go:195-213 and 216-235):
insert the header line immediately before the first empty line, if any. -/
def insertBeforeBlank (hdr : String) : List String → Option (List String)
  | [] => none
  | l :: rest =>
    if l = "" then some (hdr :: l :: rest)
    else
      match insertBeforeBlank hdr rest with
      | some r => some (l :: r)
      | none => none

/-- Header insertion (worker.go:195-213): before the first blank line
when one exists, else prepended at the top. -/
def insertHeaderLine (hdr : String) (lines : List String) : List String :=
  match insertBeforeBlank hdr lines with
  | some r => r
  | none => hdr :: lines

/-- The `hasHeaders` branch of `sendEmail` (worker.go:166-238): run the
replace loop with `From: <sender>` / `To: <joined recipients>`, then
insert whichever of the two headers was not replaced (From first, then
To, each into the list produced so far). -/
def composeWithHeaders (sender : String) (recips : List String)
    (lines : List String) : List String :=
  let fromHdr := "From: " ++ sender
  let toHdr := "To: " ++ buildAddressList recips
  let p := rewriteHeaderLines fromHdr toHdr lines
  let nl1 := if p.2.1 then p.1 else insertHeaderLine fromHdr p.1
  let nl2 := if p.2.2 then nl1 else insertHeaderLine toHdr nl1
  nl2

/-- The synthesized minimal header block of `sendEmail`
(worker.go:240-254) in the order the Go source inserts the keys.  The Go
code iterates a `map[string]string`, whose iteration order is
unspecified, so only the set of header lines is determined by the
source; the `Date` value comes from the environment clock and is passed
in as `dateStr`. -/
def synthHeaderLines (sender : String) (recips : List String)
    (subject dateStr : String) : List String :=
  ["From: " ++ sender,
   "To: " ++ buildAddressList recips,
   "Subject: " ++ subject,
   "MIME-Version: 1.0",
   "Content-Type: text/plain; charset=\"utf-8\"",
   "Content-Transfer-Encoding: 8bit",
   "Date: " ++ dateStr]

/-- The message-composition part of `sendEmail` (worker.go:148-255):
split the stored content at CRLF; if a header block is detected, rewrite
From/To in place and re-join; otherwise prepend the synthesized header
block followed by a blank line. -/
def composeMessage (sender : String) (email : Email) (dateStr : String) :
    String :=
  let lines := splitLines email.Body
  if hasHeadersCheck lines then joinCRLF (composeWithHeaders sender email.To lines)
  else
    ((synthHeaderLines sender email.To email.Subject dateStr).foldl
      (fun acc kv => acc ++ kv ++ "\r\n") "") ++ "\r\n" ++ email.Body

/-- The deterministic head of `sendEmail` (worker.go:132-266): fail when
no upstream host is configured; fail when `SMTP_FROM` is empty (both
before any connection is opened); otherwise produce the envelope sender
(always `cfg.SMTPFrom`), the envelope recipients, and the composed
message that the selected transport would transmit. -/
def sendEmailPrep (cfg : Config) (dateStr : String) (email : Email) :
    Except String (String × List String × String) :=
  if cfg.SMTPHost = "" then .error "未配置SMTP服务器"
  else
    let sender := cfg.SMTPFrom
    if sender = "" then .error "未配置SMTP_FROM，无法发送邮件"
    else .ok (sender, email.To, composeMessage sender email dateStr)

/-- One delivery attempt: the deterministic preparation followed by the
network exchange, whose outcome per message id is the oracle `net`
(connection, handshake, auth, envelope and data errors of
worker.go:258-400 are all environmental). -/
def attemptDelivery (cfg : Config) (dateStr : String)
    (net : Int → Except String Unit) (email : Email) : Except String Unit :=
  match sendEmailPrep cfg dateStr email with
  | .error e => .error e
  | .ok _ => net email.ID

/-- The per-message body of the `processQueue` loop (worker.go:94-128):
on failure, record the failure (`MarkEmailFailed`) and delete the
message when the **fetched** `FailCount` is at least the literal `5`;
on success, delete the message. -/
def processMessage (cfg : Config) (dateStr : String)
    (net : Int → Except String Unit) (st : Store) (email : Email) : Store :=
  match attemptDelivery cfg dateStr net email with
  | .error e =>
    let st1 := markEmailFailed st email.ID e
    if email.FailCount ≥ 5 then deleteEmail st1 email.ID else st1
  | .ok _ => deleteEmail st email.ID

/-- `processQueue` (worker.go:77-129): fetch up to 10 pending messages
once, then run the per-message step over that snapshot in order. -/
def processQueue (cfg : Config) (dateStr : String)
    (net : Int → Except String Unit) (st : Store) : Store :=
  (getPendingEmails st 10).foldl (processMessage cfg dateStr net) st

/-- `cleanupOldEmails` as invoked by the worker (worker.go:62-74): the
sweep with the configured thresholds. -/
def workerCleanup (cfg : Config) (now : Int) (st : Store) : Nat × Store :=
  cleanupOldEmails st now cfg.MaxEmailAge cfg.MaxFailCount

/-! ## Specification-side definitions

Definitions following the wording of amended claims, for refinement
comparison with the code-side definitions above. -/

/-- Spec-side line rewriting for the amended C4: a line beginning
case-insensitively with `from:` (anywhere in the content, header or
body) becomes the From header, one beginning with `to:` becomes the To
header, any other line is kept verbatim. -/
def replaceLine (fromHdr toHdr : String) (l : String) : String :=
  if strHasPre (strToLower l) "from:" then fromHdr
  else if strHasPre (strToLower l) "to:" then toHdr
  else l

/-- Spec-side composition for the amended C4: map the rewrite over all
lines, then insert the From header (before the first blank line, or at
the top) when no line began with `from:`, then likewise the To header. -/
def composeSpec (sender : String) (recips : List String)
    (lines : List String) : List String :=
  let fromHdr := "From: " ++ sender
  let toHdr := "To: " ++ buildAddressList recips
  let replaced := lines.map (replaceLine fromHdr toHdr)
  let r1 :=
    if lines.any (fun l => strHasPre (strToLower l) "from:") then replaced
    else insertHeaderLine fromHdr replaced
  let r2 :=
    if lines.any (fun l => strHasPre (strToLower l) "to:") then r1
    else insertHeaderLine toHdr r1
  r2

/-- A line that is neither a From line nor a To line (the lines the
spec says must survive composition verbatim). -/
def keepLine (l : String) : Bool :=
  !(strHasPre (strToLower l) "from:") && !(strHasPre (strToLower l) "to:")

/-! ## Concrete fixtures used by witnesses and counterexamples -/

/-- A fully-populated configuration with the default thresholds of
`.env.example` (`MAX_FAIL_COUNT=5`, `MAX_EMAIL_AGE=72`). -/
def cfgEx : Config :=
  { MaxEmailAge := 72, MaxFailCount := 5, SMTPHost := "upstream.example"
    SMTPPort := 587, SMTPUsername := "user", SMTPPassword := "pw"
    SMTPFrom := "noreply@relay", SMTPEncryption := "tls" }

/-- The same configuration with `SMTP_FROM` unset. -/
def cfgNoFrom : Config := { cfgEx with SMTPFrom := "" }

/-- An empty queue store. -/
def stEmpty : Store := { nextId := 1, emails := [] }

/-- A session in the middle of a transaction (greeted, sender and one
recipient declared, one body line buffered, not in body mode). -/
def sMid : SmtpSession :=
  { helo := "client.example", mailFrom := "u@x", rcptTo := ["v@y"]
    data := ["body line"], inData := false, quit := false }

/-- A session in body-collection mode with no body line collected yet. -/
def sPreDot : SmtpSession :=
  { helo := "client.example", mailFrom := "u@x", rcptTo := ["v@y"]
    data := [], inData := true, quit := false }

/-- A greeted session with no sender declared. -/
def sNoSender : SmtpSession :=
  { helo := "client.example", mailFrom := "", rcptTo := [], data := []
    inData := false, quit := false }

/-- The mid-transaction session switched into body-collection mode. -/
def sBody : SmtpSession := { sMid with inData := true }

/-- A queued message that has already failed four delivery attempts. -/
def rowFail4 : EmailRow :=
  { id := 1, fromAddress := "u@x", toAddresses := "v@y", subject := "subj"
    body := "MIME-Version: 1.0", createdAt := 0, sent := false
    failCount := 4, lastError := "" }

/-- The same message after a fifth recorded failure. -/
def rowFail5 : EmailRow := { rowFail4 with failCount := 5 }

/-- A never-failed message created at time 0 (73 hours before a sweep
at time 73 with max age 72). -/
def rowOld : EmailRow :=
  { id := 1, fromAddress := "u@x", toAddresses := "v@y", subject := "subj"
    body := "b", createdAt := 0, sent := false, failCount := 0
    lastError := "" }

/-- The error text of the failing network oracle below. -/
def netRefusedMsg : String := "dial tcp: connection refused"

/-- A network oracle on which every transport exchange fails. -/
def netFail : Int → Except String Unit :=
  fun _ => .error netRefusedMsg

/-- The `db.Email` value the worker fetches for `rowFail4`. -/
def emailEx : Email := rowToEmail rowFail4

/-- A stored content with a recognised header block and a body line that
looks like a From header (`from: alice` after the blank line). -/
def mimeBody : String := "MIME-Version: 1.0\r\n\r\nfrom: alice"

/-- A queued message carrying `mimeBody`. -/
def emailMime : Email :=
  { ID := 1, From := "u@x", To := ["v@y"], Subject := "subj"
    Body := mimeBody, Created := 0, Sent := false, FailCount := 0
    LastError := "" }

/-- `joinAddresses` transported to character lists (used to reason about
the `";"` round trip). -/
def joinChars : List (List Char) → List Char
  | [] => []
  | [a] => a
  | a :: rest => a ++ ';' :: joinChars rest

/-! ## Helper lemmas -/

theorem strMk_data (s : String) : String.mk s.data = s := rfl

theorem strData_append (a b : String) : (a ++ b).data = a.data ++ b.data := by
  cases a; cases b; rfl

/-- Lines outside body mode starting with `HELO ` dispatch to
`handleHelo` (server.go:158-160). -/
theorem dispatch_helo (cfg : Config) (now : Int) (st : Store)
    (s : SmtpSession) (args : String) (h : s.inData = false) :
    handleCommand cfg now st s ("HELO " ++ args) =
      ((handleHelo s args).1, st, (handleHelo s args).2) := by
  obtain ⟨largs⟩ := args
  obtain ⟨helo, mailFrom, rcptTo, data, inData, quit⟩ := s
  subst h
  rfl

/-- Lines outside body mode starting with `EHLO ` dispatch to
`handleHelo` as well. -/
theorem dispatch_ehlo (cfg : Config) (now : Int) (st : Store)
    (s : SmtpSession) (args : String) (h : s.inData = false) :
    handleCommand cfg now st s ("EHLO " ++ args) =
      ((handleHelo s args).1, st, (handleHelo s args).2) := by
  obtain ⟨largs⟩ := args
  obtain ⟨helo, mailFrom, rcptTo, data, inData, quit⟩ := s
  subst h
  rfl

/-- Lines outside body mode starting with `RCPT ` dispatch to
`handleRcpt` (server.go:163-164). -/
theorem dispatch_rcpt (cfg : Config) (now : Int) (st : Store)
    (s : SmtpSession) (args : String) (h : s.inData = false) :
    handleCommand cfg now st s ("RCPT " ++ args) =
      ((handleRcpt s args).1, st, (handleRcpt s args).2) := by
  obtain ⟨largs⟩ := args
  obtain ⟨helo, mailFrom, rcptTo, data, inData, quit⟩ := s
  subst h
  rfl

/-- The line `RSET` outside body mode dispatches to `handleRset`. -/
theorem dispatch_rset (cfg : Config) (now : Int) (st : Store)
    (s : SmtpSession) (h : s.inData = false) :
    handleCommand cfg now st s "RSET" =
      ((handleRset s).1, st, (handleRset s).2) := by
  obtain ⟨helo, mailFrom, rcptTo, data, inData, quit⟩ := s
  subst h
  rfl

/-- In body mode every line is routed to `handleData`
(server.go:146-148). -/
theorem dispatch_body (cfg : Config) (now : Int) (st : Store)
    (s : SmtpSession) (line : String) (h : s.inData = true) :
    handleCommand cfg now st s line = handleData cfg now st s line := by
  obtain ⟨helo, mailFrom, rcptTo, data, inData, quit⟩ := s
  subst h
  rfl

/-! ## Claims about the ingestion session -/

/-- **C9** (confirmed).  Outside body-collection mode, `RSET` replies
250 and leaves the session with empty sender, recipients and body while
preserving the greeting (and the store); issuing `RSET` again produces
exactly the same session, so reset is idempotent. -/
theorem rset_resets_transaction_and_is_idempotent (cfg : Config)
    (now : Int) (st : Store) (s : SmtpSession) (h : s.inData = false) :
    handleCommand cfg now st s "RSET" =
      ({ s with mailFrom := "", rcptTo := [], data := [], inData := false },
       st, [statusOK])
  ∧ handleCommand cfg now st
      { s with mailFrom := "", rcptTo := [], data := [], inData := false }
      "RSET" =
      ({ s with mailFrom := "", rcptTo := [], data := [], inData := false },
       st, [statusOK]) := by
  constructor
  · rw [dispatch_rset cfg now st s h]
    rfl
  · rw [dispatch_rset cfg now st _ rfl]
    rfl

/-- Witness for C9 at a concrete mid-transaction session. -/
theorem rset_resets_transaction_witness :
    handleCommand cfgEx 0 stEmpty sMid "RSET" =
      ({ sMid with mailFrom := "", rcptTo := [], data := [], inData := false },
       stEmpty, [statusOK])
  ∧ handleCommand cfgEx 0 stEmpty
      { sMid with mailFrom := "", rcptTo := [], data := [], inData := false }
      "RSET" =
      ({ sMid with mailFrom := "", rcptTo := [], data := [], inData := false },
       stEmpty, [statusOK]) :=
  rset_resets_transaction_and_is_idempotent cfgEx 0 stEmpty sMid rfl

/-- **C6** (confirmed).  With no sender declared and outside body mode,
any `RCPT` command replies 503 and returns the session and store
entirely unchanged. -/
theorem rcpt_before_sender_is_rejected_without_mutation (cfg : Config)
    (now : Int) (st : Store) (s : SmtpSession) (args : String)
    (h1 : s.inData = false) (h2 : s.mailFrom = "") :
    handleCommand cfg now st s ("RCPT " ++ args) =
      (s, st, [statusBadSequence]) := by
  rw [dispatch_rcpt cfg now st s args h1]
  simp [handleRcpt, h2]

/-- Witness for C6: a greeted session with no sender rejects
`RCPT TO:<v@y>` untouched. -/
theorem rcpt_before_sender_witness :
    handleCommand cfgEx 0 stEmpty sNoSender ("RCPT " ++ "TO:<v@y>") =
      (sNoSender, stEmpty, [statusBadSequence]) :=
  rcpt_before_sender_is_rejected_without_mutation cfgEx 0 stEmpty
    sNoSender "TO:<v@y>" rfl rfl

/-- Counterexample to **C2** as stated: a `HELO` with a non-empty
argument received mid-transaction leaves the stored sender, recipient
list, and body lines exactly as they were — they are *not* cleared. -/
theorem helo_does_not_clear_transaction :
    (handleCommand cfgEx 0 stEmpty sMid "HELO b").1.mailFrom = "u@x"
  ∧ (handleCommand cfgEx 0 stEmpty sMid "HELO b").1.rcptTo = ["v@y"]
  ∧ (handleCommand cfgEx 0 stEmpty sMid "HELO b").1.data = ["body line"]
  ∧ ("u@x" : String) ≠ "" := by
  refine ⟨rfl, rfl, rfl, by decide⟩

/-- **C2** (amended).  Outside body mode, `HELO`/`EHLO` with a
non-empty argument stores the argument as the greeting and replies 250,
leaving the stored sender, recipient list and body lines unchanged from
their prior values (`handleHelo` touches no other field). -/
theorem helo_marks_greeted_and_preserves_transaction (cfg : Config)
    (now : Int) (st : Store) (s : SmtpSession) (args : String)
    (h1 : s.inData = false) (h2 : args ≠ "") :
    handleCommand cfg now st s ("HELO " ++ args) =
      ({ s with helo := args }, st, [statusOK])
  ∧ handleCommand cfg now st s ("EHLO " ++ args) =
      ({ s with helo := args }, st, [statusOK]) := by
  constructor
  · rw [dispatch_helo cfg now st s args h1]
    simp [handleHelo, h2]
  · rw [dispatch_ehlo cfg now st s args h1]
    simp [handleHelo, h2]

/-- Witness for the amended C2 at the concrete mid-transaction
session. -/
theorem helo_marks_greeted_witness :
    handleCommand cfgEx 0 stEmpty sMid ("HELO " ++ "b") =
      ({ sMid with helo := "b" }, stEmpty, [statusOK])
  ∧ handleCommand cfgEx 0 stEmpty sMid ("EHLO " ++ "b") =
      ({ sMid with helo := "b" }, stEmpty, [statusOK]) :=
  helo_marks_greeted_and_preserves_transaction cfgEx 0 stEmpty sMid "b"
    rfl (by decide)

/-- Counterexample to **C3** as stated: on the terminator `"."` with an
empty body the reply is the 554 empty-body failure, but the session's
sender and recipient list are **not** cleared. -/
theorem empty_body_commit_keeps_envelope_counterexample :
    handleCommand cfgEx 0 stEmpty sPreDot "." =
      ({ sPreDot with inData := false }, stEmpty,
       ["554 Transaction failed: 邮件内容为空"])
  ∧ ({ sPreDot with inData := false }).mailFrom = "u@x"
  ∧ ({ sPreDot with inData := false }).rcptTo = ["v@y"]
  ∧ ("u@x" : String) ≠ "" := by
  refine ⟨rfl, rfl, rfl, by decide⟩

/-- **C3** (amended).  In body mode with zero collected body lines, the
terminator replies `554 Transaction failed: 邮件内容为空`, inserts
nothing into the store, and leaves body-collection mode; the body stays
empty but the sender and recipient list keep their prior values. -/
theorem empty_body_commit_rejects_and_keeps_envelope (cfg : Config)
    (now : Int) (st : Store) (s : SmtpSession) (h1 : s.inData = true)
    (h2 : s.data = []) :
    handleCommand cfg now st s "." =
      ({ s with inData := false }, st,
       ["554 Transaction failed: 邮件内容为空"]) := by
  obtain ⟨helo, mailFrom, rcptTo, data, inData, quit⟩ := s
  subst h1
  subst h2
  rfl

/-- Witness for the amended C3 at the concrete session. -/
theorem empty_body_commit_witness :
    handleCommand cfgEx 0 stEmpty sPreDot "." =
      ({ sPreDot with inData := false }, stEmpty,
       ["554 Transaction failed: 邮件内容为空"]) :=
  empty_body_commit_rejects_and_keeps_envelope cfgEx 0 stEmpty sPreDot
    rfl rfl

/-- **C7** (confirmed).  In body mode: the line `"."` ends collection
and triggers the commit routine; a longer line starting with a dot is
appended with exactly its leading dot removed; any other line is
appended verbatim.  Content lines emit no reply and leave the store
untouched. -/
theorem body_mode_line_handling (cfg : Config) (now : Int) (st : Store)
    (s : SmtpSession) (line : String) (h : s.inData = true) :
    (line = "." →
      handleCommand cfg now st s line =
        commitTransaction cfg now st { s with inData := false })
  ∧ (strHasPre line "." = true → line ≠ "." →
      handleCommand cfg now st s line =
        ({ s with data := s.data ++ [strDrop line 1] }, st, []))
  ∧ (strHasPre line "." = false →
      handleCommand cfg now st s line =
        ({ s with data := s.data ++ [line] }, st, [])) := by
  rw [dispatch_body cfg now st s line h]
  refine ⟨?_, ?_, ?_⟩
  · intro hl
    subst hl
    rfl
  · intro hpre hne
    simp [handleData, hne, hpre]
  · intro hpre
    have hne : line ≠ "." := by
      intro e
      rw [e] at hpre
      exact absurd hpre (by decide)
    simp [handleData, hne, hpre]

/-- Witness for C7: the dot-stuffed line `".x"` is stored as `"x"`. -/
theorem body_mode_line_handling_witness :
    handleCommand cfgEx 0 stEmpty sBody ".x" =
      ({ sBody with data := sBody.data ++ [strDrop ".x" 1] }, stEmpty, []) :=
  (body_mode_line_handling cfgEx 0 stEmpty sBody ".x" rfl).2.1
    (by decide) (by decide)

/-! ## Claims about the dispatch worker and the sweep -/

/-- Counterexample to **C1** as stated: with `max-fail-count = 5`, a
message whose 5th delivery attempt fails (fetched failure count 4, so
the recorded count reaches 5 = the configured maximum) is **not**
deleted in that dispatch tick: `processQueue` compares the *fetched*
count against the literal `5`, so the message survives the tick with
failure count 5. -/
theorem fifth_failure_not_deleted_in_tick :
    cfgEx.MaxFailCount = 5
  ∧ (rowToEmail rowFail4).FailCount + 1 = 5
  ∧ (processQueue cfgEx "Mon" netFail { nextId := 2, emails := [rowFail4] }).emails =
      [{ rowFail4 with failCount := 5, lastError := netRefusedMsg }] := by
  refine ⟨rfl, rfl, ?_⟩
  rfl

/-- **C1** (amended).  For a failing pending message, the dispatch tick
deletes it exactly when its failure count *as fetched* (before the new
failure is recorded) is at least the literal `5` — independent of the
configured max-fail-count; otherwise it survives the tick with the
failure count incremented and the error recorded.  In particular a
message failing its 5th attempt survives that tick and is deleted only
on the tick of its 6th failed attempt. -/
theorem failed_message_deleted_iff_fetched_count_ge_five (cfg : Config)
    (dateStr : String) (net : Int → Except String Unit) (st : Store)
    (r : EmailRow) (msg : String) (hst : st.emails = [r])
    (hsent : r.sent = false) (hhost : cfg.SMTPHost ≠ "")
    (hfrom : cfg.SMTPFrom ≠ "") (hnet : net r.id = .error msg) :
    (r.failCount ≥ 5 → (processQueue cfg dateStr net st).emails = [])
  ∧ (r.failCount < 5 →
      (processQueue cfg dateStr net st).emails =
        [{ r with failCount := r.failCount + 1, lastError := msg }]) := by
  have hfetch : getPendingEmails st 10 = [rowToEmail r] := by
    simp [getPendingEmails, hst, hsent, sortByCreated, insertByCreated]
  have hrid : (rowToEmail r).ID = r.id := rfl
  have hattempt : attemptDelivery cfg dateStr net (rowToEmail r) = .error msg := by
    simp [attemptDelivery, sendEmailPrep, hhost, hfrom, hrid, hnet]
  constructor
  · intro hge
    have hfc : (rowToEmail r).FailCount ≥ 5 := hge
    simp [processQueue, hfetch, processMessage, hattempt, hfc, hrid,
      markEmailFailed, deleteEmail, hst]
  · intro hlt
    have hfc : ¬((rowToEmail r).FailCount ≥ 5) := not_le.mpr hlt
    simp [processQueue, hfetch, processMessage, hattempt, hfc, hrid,
      markEmailFailed, hst]

/-- Witness for the amended C1: a message fetched with failure count 5
whose delivery fails is deleted within the tick. -/
theorem failed_message_deleted_witness :
    (processQueue cfgEx "Mon" netFail { nextId := 2, emails := [rowFail5] }).emails = [] :=
  (failed_message_deleted_iff_fetched_count_ge_five cfgEx "Mon" netFail
    { nextId := 2, emails := [rowFail5] } rowFail5
    "dial tcp: connection refused" rfl rfl (by decide) (by decide) rfl).1
    (by decide)

/-- The two complementary filters of one predicate partition a list's
length. -/
theorem length_filter_add_length_filter_not {α : Type} (p : α → Bool)
    (l : List α) :
    (l.filter p).length + (l.filter (fun a => !(p a))).length = l.length := by
  induction l with
  | nil => rfl
  | cons a l ih =>
    by_cases h : p a <;> simp [List.filter_cons, h] <;> omega

/-- **C8** (confirmed).  One sweep keeps exactly the messages that both
have failure count below the maximum and are not older than the maximum
age (it removes the `fail_count ≥ max` rows first, then the
`created_at < now − maxAge` rows), and the returned count is the total
number of rows removed; concretely, under max-age 72 a message created
73 hours before the sweep with failure count 0 is removed and counted. -/
theorem sweep_removes_failed_then_old_and_counts (st : Store) (now : Int)
    (maxAge : Int) (maxFail : Int) :
    (cleanupOldEmails st now maxAge maxFail).2.emails =
      st.emails.filter (fun r =>
        !(decide (r.failCount ≥ maxFail)) && !(decide (r.createdAt < now - maxAge)))
  ∧ (cleanupOldEmails st now maxAge maxFail).1 +
      (cleanupOldEmails st now maxAge maxFail).2.emails.length =
      st.emails.length
  ∧ cleanupOldEmails { nextId := 2, emails := [rowOld] } 73 72 5 =
      (1, { nextId := 2, emails := [] }) := by
  refine ⟨?_, ?_, rfl⟩
  · simp only [cleanupOldEmails, List.filter_filter]
    exact List.filter_congr (fun r _ => by rw [Bool.and_comm])
  · have h1 := length_filter_add_length_filter_not
      (fun r : EmailRow => decide (r.failCount ≥ maxFail)) st.emails
    have h2 := length_filter_add_length_filter_not
      (fun r : EmailRow => decide (r.createdAt < now - maxAge))
      (st.emails.filter (fun r => !(decide (r.failCount ≥ maxFail))))
    simp only [cleanupOldEmails]
    omega

/-- **C10** (confirmed).  The delivery preparation's envelope sender is
always `cfg.SMTPFrom` whatever sender is stored in the record, and with
an empty `SMTP_FROM` every attempt fails with one of the two descriptive
configuration errors — both raised before any upstream connection would
be opened. -/
theorem envelope_sender_is_configured_from (cfg : Config)
    (dateStr : String) (email : Email) :
    (∀ sender rcpts msg,
        sendEmailPrep cfg dateStr email = .ok (sender, rcpts, msg) →
        sender = cfg.SMTPFrom ∧ rcpts = email.To)
  ∧ (∀ f₁ f₂, sendEmailPrep cfg dateStr { email with From := f₁ } =
        sendEmailPrep cfg dateStr { email with From := f₂ })
  ∧ (cfg.SMTPFrom = "" →
      sendEmailPrep cfg dateStr email = .error "未配置SMTP服务器" ∨
      sendEmailPrep cfg dateStr email = .error "未配置SMTP_FROM，无法发送邮件") := by
  refine ⟨?_, ?_, ?_⟩
  · intro sender rcpts msg h
    by_cases hh : cfg.SMTPHost = ""
    · simp [sendEmailPrep, hh] at h
    · by_cases hf : cfg.SMTPFrom = ""
      · simp [sendEmailPrep, hh, hf] at h
      · simp [sendEmailPrep, hh, hf] at h
        exact ⟨h.1.symm, h.2.1.symm⟩
  · intro f₁ f₂
    rfl
  · intro hf
    by_cases hh : cfg.SMTPHost = ""
    · exact Or.inl (by simp [sendEmailPrep, hh])
    · exact Or.inr (by simp [sendEmailPrep, hh, hf])

/-- Witness for C10: with `SMTP_FROM` unset the attempt fails with a
configuration error. -/
theorem envelope_sender_witness :
    sendEmailPrep cfgNoFrom "Mon" emailEx = .error "未配置SMTP服务器" ∨
    sendEmailPrep cfgNoFrom "Mon" emailEx = .error "未配置SMTP_FROM，无法发送邮件" :=
  (envelope_sender_is_configured_from cfgNoFrom "Mon" emailEx).2.2 rfl

/-! ## Claims about the recipient-list round trip (C5) -/

theorem strData_eq_nil {s : String} (h : s.data = []) : s = "" :=
  congrArg String.mk h

theorem strData_ne_nil {s : String} (h : s ≠ "") : s.data ≠ [] :=
  fun e => h (strData_eq_nil e)

theorem joinAddresses_data (recips : List String) :
    (joinAddresses recips).data = joinChars (recips.map String.data) := by
  induction recips with
  | nil => rfl
  | cons a rest ih =>
    cases rest with
    | nil => rfl
    | cons b rest' =>
      show (a ++ ";" ++ joinAddresses (b :: rest')).data = _
      rw [strData_append, strData_append, ih, List.append_assoc]
      rfl

theorem splitStringAux_append_sep (rest : List Char) :
    ∀ (l acc : List Char), (∀ c ∈ l, c ≠ ';') →
      splitStringAux (l ++ ';' :: rest) acc =
        (acc.reverse ++ l) :: splitStringAux rest []
  | [], acc, _ => by simp [splitStringAux]
  | c :: l, acc, h => by
    have hc : c ≠ ';' := h c (List.mem_cons_self c l)
    have step : splitStringAux ((c :: l) ++ ';' :: rest) acc =
        splitStringAux (l ++ ';' :: rest) (c :: acc) := by
      simp [splitStringAux, hc]
    rw [step, splitStringAux_append_sep rest l (c :: acc)
      (fun d hd => h d (List.mem_cons_of_mem c hd))]
    simp

theorem splitStringAux_no_sep :
    ∀ (l acc : List Char), (∀ c ∈ l, c ≠ ';') → acc.reverse ++ l ≠ [] →
      splitStringAux l acc = [acc.reverse ++ l]
  | [], acc, _, hne => by
    have hacc : acc ≠ [] := by
      intro e
      exact hne (by simp [e])
    simp [splitStringAux, List.isEmpty_iff, hacc]
  | c :: l, acc, h, _ => by
    have hc : c ≠ ';' := h c (List.mem_cons_self c l)
    have step : splitStringAux (c :: l) acc = splitStringAux l (c :: acc) := by
      simp [splitStringAux, hc]
    rw [step, splitStringAux_no_sep l (c :: acc)
      (fun d hd => h d (List.mem_cons_of_mem c hd)) (by simp)]
    simp

theorem splitStringAux_joinChars (ls : List (List Char))
    (h : ∀ l ∈ ls, l ≠ [] ∧ ∀ c ∈ l, c ≠ ';') (hne : ls ≠ []) :
    splitStringAux (joinChars ls) [] = ls := by
  induction ls with
  | nil => exact absurd rfl hne
  | cons a rest ih =>
    cases rest with
    | nil =>
      have ha := h a (List.mem_cons_self a [])
      show splitStringAux a [] = [a]
      rw [splitStringAux_no_sep a [] ha.2 (by simpa using ha.1)]
      rfl
    | cons b rest' =>
      have ha := h a (List.mem_cons_self a (b :: rest'))
      show splitStringAux (a ++ ';' :: joinChars (b :: rest')) [] = _
      rw [splitStringAux_append_sep (joinChars (b :: rest')) a [] ha.2]
      rw [ih (fun l hl => h l (List.mem_cons_of_mem a hl)) (by simp)]
      rfl

theorem map_mk_data (l : List String) : l.map (String.mk ∘ String.data) = l := by
  induction l with
  | nil => rfl
  | cons a r ih =>
    show String.mk a.data :: r.map (String.mk ∘ String.data) = a :: r
    rw [ih]

/-- Counterexample to **C5** as stated: the address `a;b` (accepted by
`handleRcpt`, which only trims angle brackets and lower-cases) is
serialised with the same `";"` the store uses as its separator, so the
fetched recipient list is `["a", "b"]`, not the accepted `["a;b"]`. -/
theorem recipient_roundtrip_counterexample :
    handleRcpt { newSession with helo := "client.example", mailFrom := "u@x" }
        "TO:<A;B>" =
      ({ newSession with helo := "client.example", mailFrom := "u@x", rcptTo := ["a;b"] },
       [statusOK])
  ∧ (getPendingEmails
        (queueEmail stEmpty 0 "u@x" ["a;b"] "subj" "body").2 10).map Email.To =
      [["a", "b"]]
  ∧ (["a", "b"] : List String) ≠ ["a;b"] := by
  refine ⟨rfl, rfl, by decide⟩

/-- **C5** (amended).  For every non-empty recipient list whose
addresses are non-empty and contain no `';'` (the store's serialisation
separator), inserting and fetching returns exactly the same list — same
addresses, same order, duplicates preserved.  An address containing
`';'` is instead split at each `';'` into its non-empty segments. -/
theorem recipient_roundtrip_exact_without_separator (recips : List String)
    (hne : recips ≠ [])
    (hok : ∀ a ∈ recips, a ≠ "" ∧ ∀ c ∈ a.data, c ≠ ';') :
    splitAddresses (joinAddresses recips) = recips := by
  have hchars : ∀ l ∈ recips.map String.data, l ≠ [] ∧ ∀ c ∈ l, c ≠ ';' := by
    intro l hl
    obtain ⟨a, ha, rfl⟩ := List.mem_map.mp hl
    exact ⟨strData_ne_nil (hok a ha).1, (hok a ha).2⟩
  have hmapne : recips.map String.data ≠ [] := by
    simpa using hne
  have hjoin : (joinAddresses recips).data ≠ [] := by
    rw [joinAddresses_data]
    obtain ⟨a, rest, rfl⟩ := List.exists_cons_of_ne_nil hne
    have ha := strData_ne_nil (hok a (List.mem_cons_self a rest)).1
    cases rest with
    | nil => exact ha
    | cons b rest' =>
      show a.data ++ ';' :: joinChars ((b :: rest').map String.data) ≠ []
      simp
  have hsne : joinAddresses recips ≠ "" := fun e => hjoin (by rw [e])
  unfold splitAddresses
  rw [if_neg hsne]
  unfold splitString
  rw [joinAddresses_data, splitStringAux_joinChars _ hchars hmapne]
  rw [List.map_map, map_mk_data, List.filter_eq_self]
  intro a ha
  simpa using (hok a ha).1

/-- Witness for the amended C5 on a concrete two-address list. -/
theorem recipient_roundtrip_witness :
    splitAddresses (joinAddresses ["a@x", "b@y"]) = ["a@x", "b@y"] :=
  recipient_roundtrip_exact_without_separator ["a@x", "b@y"] (by decide)
    (by decide)

/-! ## Claims about delivery composition (C4) -/

theorem from_excludes_to (s : String) (h : strHasPre s "from:" = true) :
    strHasPre s "to:" = false := by
  unfold strHasPre at h ⊢
  cases hd : s.data with
  | nil =>
    rw [hd] at h
    exact absurd h (by decide)
  | cons c cs =>
    rw [hd] at h
    have h' : ('f' == c && List.isPrefixOf ['r', 'o', 'm', ':'] cs) = true := h
    have hc : c = 'f' := (eq_of_beq ((Bool.and_eq_true _ _).mp h').1).symm
    subst hc
    rfl

theorem rewriteHeaderLines_spec (fh th : String) (lines : List String) :
    rewriteHeaderLines fh th lines =
      (lines.map (replaceLine fh th),
       lines.any (fun l => strHasPre (strToLower l) "from:"),
       lines.any (fun l => strHasPre (strToLower l) "to:")) := by
  induction lines with
  | nil => rfl
  | cons l rest ih =>
    by_cases hf : strHasPre (strToLower l) "from:" = true
    · have ht := from_excludes_to (strToLower l) hf
      simp [rewriteHeaderLines, replaceLine, hf, ht, ih]
    · have hf' : strHasPre (strToLower l) "from:" = false := by simpa using hf
      by_cases ht : strHasPre (strToLower l) "to:" = true
      · simp [rewriteHeaderLines, replaceLine, hf', ht, ih]
      · have ht' : strHasPre (strToLower l) "to:" = false := by simpa using ht
        simp [rewriteHeaderLines, replaceLine, hf', ht', ih]

theorem keepLine_from_hdr (s : String) : keepLine ("From: " ++ s) = false := by
  unfold keepLine strHasPre strToLower
  rw [strData_append, List.map_append]
  rfl

theorem keepLine_to_hdr (s : String) : keepLine ("To: " ++ s) = false := by
  unfold keepLine strHasPre strToLower
  rw [strData_append, List.map_append]
  rfl

theorem filter_keep_map (fh th : String) (hfh : keepLine fh = false)
    (hth : keepLine th = false) (lines : List String) :
    (lines.map (replaceLine fh th)).filter keepLine =
      lines.filter keepLine := by
  induction lines with
  | nil => rfl
  | cons l rest ih =>
    by_cases hf : strHasPre (strToLower l) "from:" = true
    · have hk : keepLine l = false := by
        unfold keepLine
        rw [hf]
        rfl
      simp [replaceLine, hf, hk, hfh, List.filter_cons, ih]
    · have hf' : strHasPre (strToLower l) "from:" = false := by simpa using hf
      by_cases ht : strHasPre (strToLower l) "to:" = true
      · have hk : keepLine l = false := by
          unfold keepLine
          rw [ht]
          simp
        simp [replaceLine, hf', ht, hk, hth, List.filter_cons, ih]
      · have ht' : strHasPre (strToLower l) "to:" = false := by simpa using ht
        have hk : keepLine l = true := by
          unfold keepLine
          rw [hf', ht']
          rfl
        simp [replaceLine, hf', ht', hk, List.filter_cons, ih]

theorem insertBeforeBlank_filter (hdr : String) (hk : keepLine hdr = false) :
    ∀ (ls r : List String), insertBeforeBlank hdr ls = some r →
      r.filter keepLine = ls.filter keepLine
  | [], r, h => by simp [insertBeforeBlank] at h
  | l :: rest, r, h => by
    by_cases hl : l = ""
    · subst hl
      rw [show insertBeforeBlank hdr ("" :: rest) = some (hdr :: "" :: rest)
        from by simp [insertBeforeBlank]] at h
      injection h with h
      subst h
      simp [List.filter_cons, hk]
    · rw [show insertBeforeBlank hdr (l :: rest) =
          match insertBeforeBlank hdr rest with
          | some r' => some (l :: r')
          | none => none
        from by simp [insertBeforeBlank, hl]] at h
      cases hrec : insertBeforeBlank hdr rest with
      | none =>
        rw [hrec] at h
        exact absurd h (by simp)
      | some r' =>
        rw [hrec] at h
        injection h with h
        subst h
        simp [List.filter_cons,
          insertBeforeBlank_filter hdr hk rest r' hrec]

theorem filter_keep_insert (hdr : String) (hk : keepLine hdr = false)
    (ls : List String) :
    (insertHeaderLine hdr ls).filter keepLine = ls.filter keepLine := by
  unfold insertHeaderLine
  cases hins : insertBeforeBlank hdr ls with
  | none => simp [List.filter_cons, hk]
  | some r => exact insertBeforeBlank_filter hdr hk ls r hins

/-- Counterexample to **C4** as stated: in a message whose content has a
MIME-Version header block, the *body* line `from: alice` (it sits after
the blank line) does not appear in the composed message — the rewrite
pass replaced it with the new From header — so not every body line
survives composition verbatim. -/
theorem compose_rewrites_body_line_counterexample :
    composeMessage "s@r" emailMime "Mon" =
      "MIME-Version: 1.0\r\nTo: v@y\r\n\r\nFrom: s@r"
  ∧ "from: alice" ∈ splitLines emailMime.Body
  ∧ "from: alice" ∉ splitLines (composeMessage "s@r" emailMime "Mon") := by
  refine ⟨rfl, by decide, by decide⟩

/-- **C4** (amended).  For content containing a MIME-Version or
Content-Type line, the composition replaces *every* line — header or
body — beginning case-insensitively with `from:` by the new From line
(carrying the effective sender) and every line beginning with `to:` by
the new To line (comma-joined recipients); each of the two headers is
inserted before the first blank line (or at the top without one) only
when no such line existed; and exactly the lines starting with neither
prefix appear verbatim and in order in the composed message. -/
theorem compose_replaces_from_to_lines_anywhere (sender : String)
    (email : Email) (dateStr : String)
    (h : hasHeadersCheck (splitLines email.Body) = true) :
    composeMessage sender email dateStr =
      joinCRLF (composeSpec sender email.To (splitLines email.Body))
  ∧ (composeWithHeaders sender email.To (splitLines email.Body)).filter
      keepLine = (splitLines email.Body).filter keepLine := by
  have hcomp : ∀ lines : List String,
      composeWithHeaders sender email.To lines =
        composeSpec sender email.To lines := by
    intro lines
    unfold composeWithHeaders composeSpec
    simp only [rewriteHeaderLines_spec]
  constructor
  · unfold composeMessage
    rw [if_pos h, hcomp]
  · rw [hcomp]
    unfold composeSpec
    have h1 := filter_keep_map ("From: " ++ sender)
      ("To: " ++ buildAddressList email.To) (keepLine_from_hdr sender)
      (keepLine_to_hdr (buildAddressList email.To)) (splitLines email.Body)
    by_cases ha : (splitLines email.Body).any
        (fun l => strHasPre (strToLower l) "from:") = true
    · by_cases hb : (splitLines email.Body).any
          (fun l => strHasPre (strToLower l) "to:") = true
      · simp [ha, hb, h1]
      · have hb' : (splitLines email.Body).any
            (fun l => strHasPre (strToLower l) "to:") = false := by
          simpa using hb
        simp [ha, hb', h1,
          filter_keep_insert _ (keepLine_to_hdr (buildAddressList email.To))]
    · have ha' : (splitLines email.Body).any
          (fun l => strHasPre (strToLower l) "from:") = false := by
        simpa using ha
      by_cases hb : (splitLines email.Body).any
          (fun l => strHasPre (strToLower l) "to:") = true
      · simp [ha', hb, h1,
          filter_keep_insert _ (keepLine_from_hdr sender)]
      · have hb' : (splitLines email.Body).any
            (fun l => strHasPre (strToLower l) "to:") = false := by
          simpa using hb
        simp [ha', hb', h1,
          filter_keep_insert _ (keepLine_from_hdr sender),
          filter_keep_insert _ (keepLine_to_hdr (buildAddressList email.To))]

/-- Witness for the amended C4 at the concrete MIME message. -/
theorem compose_replaces_witness :
    composeMessage "s@r" emailMime "Mon" =
      joinCRLF (composeSpec "s@r" emailMime.To (splitLines emailMime.Body))
  ∧ (composeWithHeaders "s@r" emailMime.To (splitLines emailMime.Body)).filter
      keepLine = (splitLines emailMime.Body).filter keepLine :=
  compose_replaces_from_to_lines_anywhere "s@r" emailMime "Mon" (by decide)
